import Mathlib

/-!
Shallow embedding of the admin-portal request API routes.

The source is a set of Next.js route handlers over a MongoDB collection
named "requests":
  * `ensureRequestsCollection` lazily creates the collection with a
    `$jsonSchema` validator;
  * `PUT` validates a create body and inserts a document with status
    forced to "pending" and equal creation/edit timestamps;
  * `GET` lists documents with an optional status filter, sorted by
    `createdDate` descending, paginated with a fixed page size;
  * `PATCH` validates an id/status body and runs `findOneAndUpdate`
    setting `status` and `lastEditedDate`.

Modelling conventions:
  * Dates are `Nat` (`new Date()` is passed in as a `now` parameter).
  * ObjectIds are `String`s; `ObjectId.isValid` is the 24-hex-char check
    of the bson v6 driver used by the typed route variant.
  * A JSON body field that is absent or not a string is `none`
    (`typeof x !== "string"`).
  * The database is a list of collection names plus the contents of the
    "requests" collection; handlers return a `Response` and the new
    database state.  Throwing `InvalidInputError` and the catch block
    that maps `InputException` to `ServerResponseBuilder(INVALID_INPUT)`
    are modelled by returning `Response.invalidInput` directly.
  * `PAGINATION_PAGE_SIZE` lives in a config file that is not part of
    the sources, so the page size is a parameter of `GET`.
  * `findOneAndUpdate` follows mongodb driver v6 semantics (the version
    the typed route variant typechecks against): it returns the matched
    document itself (after update, per `returnDocument: "after"`) or
    null, with no `value` wrapper field.
-/

namespace AdminPortal

def ALLOWED_STATUSES : List String := ["pending", "completed", "approved", "rejected"]

/-- A document of the "requests" collection. -/
structure RequestDoc where
  _id : String
  requestorName : String
  itemRequested : String
  createdDate : Nat
  lastEditedDate : Nat
  status : String
deriving DecidableEq, Repr

/-- The JSON shape the handlers return for a single record: `_id` is
renamed to `id` (`d._id.toString()`), other fields copied. -/
structure RequestView where
  id : String
  requestorName : String
  itemRequested : String
  createdDate : Nat
  lastEditedDate : Nat
  status : String
deriving DecidableEq, Repr

def toView (d : RequestDoc) : RequestView :=
  { id := d._id
    requestorName := d.requestorName
    itemRequested := d.itemRequested
    createdDate := d.createdDate
    lastEditedDate := d.lastEditedDate
    status := d.status }

/-- Database state: names of existing collections, and the contents of
the "requests" collection. -/
structure Database where
  collections : List String
  requests : List RequestDoc
deriving DecidableEq, Repr

/-- `ensureRequestsCollection`: `listCollections({ name: "requests" })`
then `createCollection` when the result is empty.  The `Bool` records
whether `createCollection` was performed. -/
def ensureRequestsCollection (db : Database) : Database × Bool :=
  let collections := db.collections.filter (fun n => n == "requests")
  if collections.length > 0 then (db, false)
  else ({ db with collections := db.collections ++ ["requests"] }, true)

/-- A create (PUT) request body.  The handler reads only
`requestorName` and `itemRequested`; any client-supplied `status`,
`createdDate` or `lastEditedDate` field is carried here to show it is
ignored. -/
structure CreateBody where
  requestorName : Option String
  itemRequested : Option String
  status : Option String
  createdDate : Option Nat
  lastEditedDate : Option Nat
deriving DecidableEq, Repr

/-- A status-update (PATCH) request body. -/
structure PatchBody where
  id : Option String
  status : Option String
deriving DecidableEq, Repr

/-- `validateCreateBody`: throws `InvalidInputError` unless both fields
are strings with `3 ≤ requestorName.length ≤ 30` and
`2 ≤ itemRequested.length ≤ 100`; on success the handler goes on to use
the two strings, returned here. -/
def validateCreateBody (body : CreateBody) : Except Unit (String × String) :=
  match body.requestorName, body.itemRequested with
  | some name, some item =>
      if name.length < 3 || name.length > 30 || item.length < 2 || item.length > 100 then
        Except.error ()
      else
        Except.ok (name, item)
  | _, _ => Except.error ()

def isJsWhitespace (c : Char) : Bool :=
  c == ' ' || c == '\t' || c == '\n' || c == '\r' || c == '\x0b' || c == '\x0c'

/-- JS `String.prototype.trim`: strip whitespace from both ends. -/
def jsTrim (s : String) : String :=
  String.mk (((s.toList.dropWhile isJsWhitespace).reverse.dropWhile
    isJsWhitespace).reverse)

/-- `validatePatchBody`: `id` must be a string with non-empty trim, and
`status` a string contained in `ALLOWED_STATUSES`. -/
def validatePatchBody (body : PatchBody) : Except Unit (String × String) :=
  match body.id with
  | none => Except.error ()
  | some i =>
      if jsTrim i == "" then Except.error ()
      else
        match body.status with
        | none => Except.error ()
        | some s =>
            if ALLOWED_STATUSES.contains s then Except.ok (i, s)
            else Except.error ()

def isHexDigit (c : Char) : Bool :=
  c.isDigit || ('a' ≤ c && c ≤ 'f') || ('A' ≤ c && c ≤ 'F')

/-- `ObjectId.isValid` of the bson v6 driver on a string argument:
exactly 24 hexadecimal characters. -/
def ObjectId.isValid (s : String) : Bool :=
  s.length == 24 && s.toList.all isHexDigit

/-- The possible HTTP responses of the three handlers. -/
inductive Response where
  /-- 201 with the inserted document (`{ _id, ...doc }`). -/
  | created (doc : RequestDoc)
  /-- 200 with `{ items, pagination: { page, pageSize, totalPages, totalCount } }`. -/
  | listOk (items : List RequestView) (page : Int)
      (pageSize totalPages totalCount : Nat)
  /-- 200 with the updated record. -/
  | patchOk (doc : RequestView)
  /-- `ServerResponseBuilder(ResponseType.INVALID_INPUT).build()`. -/
  | invalidInput
  /-- `ServerResponseBuilder(ResponseType.UNKNOWN_ERROR).build()`. -/
  | unknownError
deriving DecidableEq, Repr

/-- The create handler `PUT`.  `now` models `new Date()`, `newId` the
`_id` assigned by `insertOne`. -/
def PUT (body : CreateBody) (now : Nat) (newId : String) (db : Database) :
    Response × Database :=
  match validateCreateBody body with
  | Except.error _ => (Response.invalidInput, db)
  | Except.ok (name, item) =>
      let db1 := (ensureRequestsCollection db).1
      let doc : RequestDoc :=
        { _id := newId
          requestorName := name
          itemRequested := item
          createdDate := now
          lastEditedDate := now
          status := "pending" }
      (Response.created doc, { db1 with requests := db1.requests ++ [doc] })

/-- JS `parseInt(s, 10)`: skip leading whitespace, optional sign, then a
maximal run of decimal digits; `none` models `NaN`. -/
def jsParseInt (s : String) : Option Int :=
  let cs := s.toList.dropWhile (fun c => c == ' ' || c == '\t' || c == '\n' || c == '\r')
  let signAndRest : Int × List Char :=
    match cs with
    | '-' :: rest => (-1, rest)
    | '+' :: rest => (1, rest)
    | _ => (1, cs)
  let ds := signAndRest.2.takeWhile Char.isDigit
  if ds.isEmpty then none
  else some (signAndRest.1 * (ds.foldl (fun acc c => acc * 10 + (c.toNat - '0'.toNat)) 0 : Nat))

/-- The effective `status` query value: `null` and the empty string are
falsy in JS, so no filter is applied for them. -/
def effStatus (statusParam : Option String) : Option String :=
  match statusParam with
  | none => none
  | some s => if s == "" then none else some s

/-- The find query built by `GET`: `{}` or `{ status }`. -/
def matchesQuery (query : Option String) (d : RequestDoc) : Bool :=
  match query with
  | none => true
  | some s => d.status == s

/-- The sort key of `.sort({ createdDate: -1 })`: descending `createdDate`. -/
def createdDesc (a b : RequestDoc) : Prop :=
  b.createdDate ≤ a.createdDate

instance : DecidableRel createdDesc :=
  fun a b => Nat.decLe b.createdDate a.createdDate

instance : IsTotal RequestDoc createdDesc :=
  ⟨fun a b => Nat.le_total b.createdDate a.createdDate⟩

instance : IsTrans RequestDoc createdDesc :=
  ⟨fun _ _ _ hab hbc => Nat.le_trans hbc hab⟩

/-- `.sort({ createdDate: -1 })` on the matched documents (a stable
sort, as MongoDB's is on equal keys in this model). -/
def sortByCreatedDesc (l : List RequestDoc) : List RequestDoc :=
  l.insertionSort createdDesc

/-- `url.searchParams.get("page") || "1"`: a missing parameter is
`null` and the empty string is falsy, both defaulting to `"1"`. -/
def effPageStr (pageParam : Option String) : String :=
  match pageParam with
  | none => "1"
  | some s => if s == "" then "1" else s

/-- The list handler `GET`.  `statusParam` and `pageParam` are the raw
query parameters (`searchParams.get`); `pageSize` is the config constant
`PAGINATION_PAGE_SIZE`. -/
def GET (statusParam pageParam : Option String) (pageSize : Nat) (db : Database) :
    Response × Database :=
  match jsParseInt (effPageStr pageParam) with
  | none => (Response.invalidInput, db)
  | some page =>
      if page < 1 then (Response.invalidInput, db)
      else if !(match statusParam with
                | none => true
                | some s => s == "" || ALLOWED_STATUSES.contains s) then
        (Response.invalidInput, db)
      else
        let db1 := (ensureRequestsCollection db).1
        let query := effStatus statusParam
        let skip := (page - 1).toNat * pageSize
        let matched := db1.requests.filter (matchesQuery query)
        let totalCount := matched.length
        let docs := ((sortByCreatedDesc matched).drop skip).take pageSize
        let totalPages := max 1 ((totalCount + pageSize - 1) / pageSize)
        (Response.listOk (docs.map toView) page pageSize totalPages totalCount, db1)

/-- `findOneAndUpdate({ _id }, { $set: { status, lastEditedDate } },
{ returnDocument: "after" })` under driver v6: update the first document
whose `_id` matches and return the updated document, or return `none`
and leave the list unchanged. -/
def findOneAndUpdateAfter (targetId newStatus : String) (now : Nat) :
    List RequestDoc → Option RequestDoc × List RequestDoc
  | [] => (none, [])
  | d :: rest =>
      if d._id == targetId then
        let d' := { d with status := newStatus, lastEditedDate := now }
        (some d', d' :: rest)
      else
        let r := findOneAndUpdateAfter targetId newStatus now rest
        (r.1, d :: r.2)

/-- The status-update handler `PATCH` of the untyped route variant.  Its
post-update check is `if (!result || !result.value)`: under driver v6
`result` is the matched document itself, which has no `value` property,
so `result.value` is `undefined` and the check throws
`InvalidInputError("Request not found")` on every branch — after the
database was already mutated when a document matched. -/
def PATCH (body : PatchBody) (now : Nat) (db : Database) : Response × Database :=
  match validatePatchBody body with
  | Except.error _ => (Response.invalidInput, db)
  | Except.ok (i, s) =>
      if !(ObjectId.isValid i) then (Response.invalidInput, db)
      else
        let db1 := (ensureRequestsCollection db).1
        let r := findOneAndUpdateAfter i s now db1.requests
        let db2 := { db1 with requests := r.2 }
        match r.1 with
        | none => (Response.invalidInput, db2)
        | some _ => (Response.invalidInput, db2)

/-- The status-update handler `PATCH` of the typed route variant: its
post-update check is `if (!result)` and on a match it returns 200 with
the mapped record. -/
def PATCH' (body : PatchBody) (now : Nat) (db : Database) : Response × Database :=
  match validatePatchBody body with
  | Except.error _ => (Response.invalidInput, db)
  | Except.ok (i, s) =>
      if !(ObjectId.isValid i) then (Response.invalidInput, db)
      else
        let db1 := (ensureRequestsCollection db).1
        let r := findOneAndUpdateAfter i s now db1.requests
        let db2 := { db1 with requests := r.2 }
        match r.1 with
        | none => (Response.invalidInput, db2)
        | some d => (Response.patchOk (toView d), db2)

/-- A BSON value, as far as the schema validator inspects it. -/
inductive BsonValue where
  | str (s : String)
  | date (t : Nat)
  | oid (id : String)
deriving DecidableEq, Repr

/-- A BSON document: field names with values, as the validator sees it. -/
abbrev BsonDoc := List (String × BsonValue)

/-- The per-property constraints of the `$jsonSchema` validator that
`ensureRequestsCollection` installs. -/
def schemaProp (k : String) (v : BsonValue) : Bool :=
  if k == "_id" then true
  else if k == "requestorName" then
    match v with
    | BsonValue.str s => 3 ≤ s.length && s.length ≤ 30
    | _ => false
  else if k == "itemRequested" then
    match v with
    | BsonValue.str s => 2 ≤ s.length && s.length ≤ 100
    | _ => false
  else if k == "createdDate" then
    match v with
    | BsonValue.date _ => true
    | _ => false
  else if k == "lastEditedDate" then
    match v with
    | BsonValue.date _ => true
    | _ => false
  else if k == "status" then
    match v with
    | BsonValue.str s => ALLOWED_STATUSES.contains s
    | _ => false
  else false

/-- The full `$jsonSchema` check: required fields present, no field
outside the declared properties (`additionalProperties: false`), every
field satisfying its property constraint. -/
def requestsJsonSchema (d : BsonDoc) : Bool :=
  (["requestorName", "itemRequested", "createdDate", "status"].all
      (fun k => d.any (fun p => p.1 == k)))
  && d.all (fun p => schemaProp p.1 p.2)

/-- The BSON form of a stored request document: the five inserted fields
plus the driver-assigned `_id`. -/
def docToBson (doc : RequestDoc) : BsonDoc :=
  [("_id", BsonValue.oid doc._id),
   ("requestorName", BsonValue.str doc.requestorName),
   ("itemRequested", BsonValue.str doc.itemRequested),
   ("createdDate", BsonValue.date doc.createdDate),
   ("lastEditedDate", BsonValue.date doc.lastEditedDate),
   ("status", BsonValue.str doc.status)]

/-- A concrete stored record used to exercise the handlers. -/
def sampleDoc : RequestDoc :=
  { _id := "aaaaaaaaaaaaaaaaaaaaaaaa"
    requestorName := "Alice"
    itemRequested := "pens"
    createdDate := 10
    lastEditedDate := 10
    status := "pending" }

/-- A database whose "requests" collection exists and holds `sampleDoc`. -/
def sampleDb : Database :=
  { collections := ["requests"], requests := [sampleDoc] }

/-- A PATCH body whose id matches `sampleDoc` and whose status is in the
enum. -/
def samplePatchBody : PatchBody :=
  { id := some "aaaaaaaaaaaaaaaaaaaaaaaa", status := some "approved" }

/-- `sampleDoc` after the status update at time 5. -/
def sampleDocAfter : RequestDoc :=
  { sampleDoc with status := "approved", lastEditedDate := 5 }

/-- `sampleDb` after the status update at time 5. -/
def sampleDbAfter : Database :=
  { sampleDb with requests := [sampleDocAfter] }

/-- A concrete valid create body that also supplies a status and
timestamps, which the handler must ignore. -/
def sampleCreateBody : CreateBody :=
  { requestorName := some "Bob"
    itemRequested := some "ink"
    status := some "approved"
    createdDate := some 1
    lastEditedDate := some 2 }

/-- The `_id` assigned by `insertOne` in the sample run. -/
def sampleNewId : String := "bbbbbbbbbbbbbbbbbbbbbbbb"

/-- The document `PUT sampleCreateBody 7 sampleNewId sampleDb` inserts. -/
def sampleCreatedDoc : RequestDoc :=
  { _id := sampleNewId
    requestorName := "Bob"
    itemRequested := "ink"
    createdDate := 7
    lastEditedDate := 7
    status := "pending" }

/-- `sampleDb` after that insert. -/
def sampleDbAfterPut : Database :=
  { collections := ["requests"], requests := [sampleDoc, sampleCreatedDoc] }

/-! Helper lemmas shared by the claim theorems. -/

theorem ensure_requests_eq (db : Database) :
    (ensureRequestsCollection db).1.requests = db.requests := by
  unfold ensureRequestsCollection
  dsimp only
  split <;> rfl

theorem validateCreateBody_ok (body : CreateBody) (name item : String)
    (h : validateCreateBody body = Except.ok (name, item)) :
    body.requestorName = some name ∧ body.itemRequested = some item ∧
      3 ≤ name.length ∧ name.length ≤ 30 ∧
      2 ≤ item.length ∧ item.length ≤ 100 := by
  unfold validateCreateBody at h
  rcases body with ⟨rn, it, st, cd, led⟩
  rcases rn with _ | n
  · exact absurd h (by simp)
  · rcases it with _ | i
    · exact absurd h (by simp)
    · dsimp only at h
      split at h
      · exact absurd h (by simp)
      · rename_i hc
        simp only [Except.ok.injEq, Prod.mk.injEq] at h
        obtain ⟨h1, h2⟩ := h
        subst h1; subst h2
        simp only [Bool.or_eq_true, decide_eq_true_eq, not_or] at hc
        push_neg at hc
        refine ⟨rfl, rfl, ?_, ?_, ?_, ?_⟩ <;> omega

theorem validatePatchBody_ok (body : PatchBody) (i s : String)
    (h : validatePatchBody body = Except.ok (i, s)) :
    body.id = some i ∧ body.status = some s ∧
      ALLOWED_STATUSES.contains s = true := by
  unfold validatePatchBody at h
  rcases body with ⟨bid, bst⟩
  rcases bid with _ | i'
  · exact absurd h (by simp)
  · dsimp only at h
    split at h
    · exact absurd h (by simp)
    · rcases bst with _ | s'
      · exact absurd h (by simp)
      · dsimp only at h
        split at h
        · rename_i hmem
          simp only [Except.ok.injEq, Prod.mk.injEq] at h
          obtain ⟨h1, h2⟩ := h
          subst h1; subst h2
          exact ⟨rfl, rfl, hmem⟩
        · exact absurd h (by simp)

theorem findOneAndUpdateAfter_cons_pos (tid s : String) (now : Nat)
    (d : RequestDoc) (rest : List RequestDoc) (hb : (d._id == tid) = true) :
    findOneAndUpdateAfter tid s now (d :: rest) =
      (some { d with status := s, lastEditedDate := now },
       { d with status := s, lastEditedDate := now } :: rest) := by
  unfold findOneAndUpdateAfter
  rw [if_pos hb]

theorem findOneAndUpdateAfter_cons_neg (tid s : String) (now : Nat)
    (d : RequestDoc) (rest : List RequestDoc) (hb : (d._id == tid) = false) :
    findOneAndUpdateAfter tid s now (d :: rest) =
      ((findOneAndUpdateAfter tid s now rest).1,
       d :: (findOneAndUpdateAfter tid s now rest).2) := by
  conv_lhs => unfold findOneAndUpdateAfter
  rw [if_neg (show ¬((d._id == tid) = true) by simp [hb])]

theorem findOneAndUpdateAfter_length (tid s : String) (now : Nat)
    (l : List RequestDoc) :
    ((findOneAndUpdateAfter tid s now l).2).length = l.length := by
  induction l with
  | nil => rfl
  | cons d rest ih =>
      cases hb : (d._id == tid)
      · rw [findOneAndUpdateAfter_cons_neg tid s now d rest hb]
        simpa using ih
      · rw [findOneAndUpdateAfter_cons_pos tid s now d rest hb]
        simp

theorem findOneAndUpdateAfter_none (tid s : String) (now : Nat)
    (l : List RequestDoc)
    (h : (findOneAndUpdateAfter tid s now l).1 = none) :
    (findOneAndUpdateAfter tid s now l).2 = l := by
  induction l with
  | nil => rfl
  | cons d rest ih =>
      cases hb : (d._id == tid)
      · rw [findOneAndUpdateAfter_cons_neg tid s now d rest hb] at h ⊢
        dsimp only at h ⊢
        rw [ih h]
      · rw [findOneAndUpdateAfter_cons_pos tid s now d rest hb] at h
        exact absurd h (by simp)

theorem findOneAndUpdateAfter_some (tid s : String) (now : Nat)
    (l : List RequestDoc) (d' : RequestDoc)
    (h : (findOneAndUpdateAfter tid s now l).1 = some d') :
    ∃ l1 orig l2,
      l = l1 ++ orig :: l2 ∧
      orig._id = tid ∧
      d' = { orig with status := s, lastEditedDate := now } ∧
      (findOneAndUpdateAfter tid s now l).2 = l1 ++ d' :: l2 := by
  induction l with
  | nil => exact absurd h (by simp [findOneAndUpdateAfter])
  | cons d rest ih =>
      cases hb : (d._id == tid)
      · rw [findOneAndUpdateAfter_cons_neg tid s now d rest hb] at h ⊢
        dsimp only at h ⊢
        obtain ⟨l1, orig, l2, hl, hid, hd, ht⟩ := ih h
        exact ⟨d :: l1, orig, l2, by simp [hl], hid, hd, by simp [ht]⟩
      · rw [findOneAndUpdateAfter_cons_pos tid s now d rest hb] at h ⊢
        dsimp only at h ⊢
        simp only [Option.some.injEq] at h
        refine ⟨[], d, rest, rfl, by simpa using hb, h.symm, ?_⟩
        simp [h]

end AdminPortal

namespace AdminPortal

/-! Claim theorems. -/

/-- C1: a create (PUT) request whose `requestorName` has length below 3
or above 30, or whose `itemRequested` has length below 2 or above 100,
is answered with the input-validation error response and the database,
in particular the requests collection, is unchanged. -/
theorem put_rejects_invalid_lengths (name item : String)
    (st : Option String) (cd led : Option Nat) (now : Nat) (newId : String)
    (db : Database)
    (h : name.length < 3 ∨ 30 < name.length ∨
         item.length < 2 ∨ 100 < item.length) :
    PUT { requestorName := some name, itemRequested := some item,
          status := st, createdDate := cd, lastEditedDate := led }
        now newId db = (Response.invalidInput, db) := by
  have hb : (name.length < 3 || name.length > 30 ||
      item.length < 2 || item.length > 100) = true := by
    simp only [Bool.or_eq_true, decide_eq_true_eq]
    omega
  have hv : validateCreateBody
      { requestorName := some name, itemRequested := some item,
        status := st, createdDate := cd, lastEditedDate := led } =
      Except.error () := by
    unfold validateCreateBody
    dsimp only
    rw [if_pos hb]
  unfold PUT
  rw [hv]

theorem put_rejects_invalid_lengths_witness :
    PUT { requestorName := some "ab", itemRequested := some "ink",
          status := none, createdDate := none, lastEditedDate := none }
        7 sampleNewId sampleDb = (Response.invalidInput, sampleDb) :=
  put_rejects_invalid_lengths "ab" "ink" none none none 7 sampleNewId
    sampleDb (Or.inl (by decide))

/-- C3: every record the create (PUT) handler inserts has status
"pending" and `createdDate` equal to `lastEditedDate` (both the `now` of
the request), whatever status or timestamps the body supplied; the new
database is the old one with exactly that record appended. -/
theorem put_created_doc_pending (body : CreateBody) (now : Nat)
    (newId : String) (db : Database) (d : RequestDoc) (db' : Database)
    (h : PUT body now newId db = (Response.created d, db')) :
    d.status = "pending" ∧ d.createdDate = now ∧ d.lastEditedDate = now ∧
      d.createdDate = d.lastEditedDate ∧
      db'.requests = db.requests ++ [d] := by
  unfold PUT at h
  cases hv : validateCreateBody body with
  | error e =>
      rw [hv] at h
      exact absurd h (by simp)
  | ok p =>
      obtain ⟨name, item⟩ := p
      rw [hv] at h
      dsimp only at h
      simp only [Prod.mk.injEq, Response.created.injEq] at h
      obtain ⟨h1, h2⟩ := h
      subst h1
      subst h2
      refine ⟨rfl, rfl, rfl, rfl, ?_⟩
      simp [ensure_requests_eq]

end AdminPortal

namespace AdminPortal

theorem put_created_doc_pending_witness :
    sampleCreatedDoc.status = "pending" ∧ sampleCreatedDoc.createdDate = 7 ∧
      sampleCreatedDoc.lastEditedDate = 7 ∧
      sampleCreatedDoc.createdDate = sampleCreatedDoc.lastEditedDate ∧
      sampleDbAfterPut.requests = sampleDb.requests ++ [sampleCreatedDoc] :=
  put_created_doc_pending sampleCreateBody 7 sampleNewId sampleDb
    sampleCreatedDoc sampleDbAfterPut (by decide)

/-- C4: a status-update (PATCH) request whose `id` is missing, empty
after trimming, or not a valid ObjectId, or whose `status` is missing or
outside the four-value enum, is answered with the input-validation error
response and the database is unchanged. -/
theorem patch_rejects_invalid_input (body : PatchBody) (now : Nat)
    (db : Database)
    (h : body.id = none ∨
         (∃ i, body.id = some i ∧
            (jsTrim i = "" ∨ ObjectId.isValid i = false)) ∨
         body.status = none ∨
         (∃ s, body.status = some s ∧
            ALLOWED_STATUSES.contains s = false)) :
    PATCH body now db = (Response.invalidInput, db) := by
  obtain ⟨bid, bst⟩ := body
  rcases bid with _ | i
  · unfold PATCH validatePatchBody
    rfl
  · cases htr : (jsTrim i == "") with
    | true =>
        have hv : validatePatchBody ⟨some i, bst⟩ = Except.error () := by
          simp [validatePatchBody, htr]
        unfold PATCH
        rw [hv]
    | false =>
        rcases bst with _ | s
        · have hv : validatePatchBody ⟨some i, none⟩ = Except.error () := by
            simp [validatePatchBody, htr]
          unfold PATCH
          rw [hv]
        · cases hs : ALLOWED_STATUSES.contains s with
          | false =>
              have hs' : s ∉ ALLOWED_STATUSES := by simpa using hs
              have hv : validatePatchBody ⟨some i, some s⟩ =
                  Except.error () := by
                simp [validatePatchBody, htr, hs']
              unfold PATCH
              rw [hv]
          | true =>
              have hs' : s ∈ ALLOWED_STATUSES := by simpa using hs
              have hv : validatePatchBody ⟨some i, some s⟩ =
                  Except.ok (i, s) := by
                simp [validatePatchBody, htr, hs']
              have hval : ObjectId.isValid i = false := by
                rcases h with h | ⟨i', hi', hbad⟩ | h | ⟨s', hs', hbad⟩
                · simp at h
                · simp only [Option.some.injEq] at hi'
                  subst hi'
                  rcases hbad with hb | hb
                  · rw [hb] at htr
                    simp at htr
                  · exact hb
                · simp at h
                · simp only [Option.some.injEq] at hs'
                  subst hs'
                  rw [hbad] at hs
                  exact absurd hs (by simp)
              unfold PATCH
              rw [hv]
              dsimp only
              rw [if_pos (by simp [hval])]

theorem patch_rejects_invalid_input_witness :
    PATCH { id := some "zz", status := some "approved" } 5 sampleDb =
      (Response.invalidInput, sampleDb) :=
  patch_rejects_invalid_input ⟨some "zz", some "approved"⟩ 5 sampleDb
    (Or.inr (Or.inl ⟨"zz", rfl, Or.inr (by decide)⟩))

theorem collections_filter_pos_iff (l : List String) :
    0 < (l.filter (fun n => n == "requests")).length ↔
      l.contains "requests" = true := by
  constructor
  · intro h
    obtain ⟨x, hx⟩ := List.exists_mem_of_ne_nil _
      (List.ne_nil_of_length_pos h)
    obtain ⟨hxl, hxp⟩ := List.mem_filter.mp hx
    have : x = "requests" := by simpa using hxp
    subst this
    simpa [List.contains] using hxl
  · intro h
    have hm : "requests" ∈ l := by simpa [List.contains] using h
    have : "requests" ∈ l.filter (fun n => n == "requests") :=
      List.mem_filter.mpr ⟨hm, by simp⟩
    exact List.length_pos.mpr (List.ne_nil_of_mem this)

/-- C8: `ensureRequestsCollection` is idempotent: when a collection
named "requests" already exists it performs no `createCollection` and
leaves the database unchanged, and a second call right after a first one
changes nothing and creates nothing. -/
theorem ensureRequestsCollection_idem (db : Database) :
    (db.collections.contains "requests" = true →
      ensureRequestsCollection db = (db, false)) ∧
    ensureRequestsCollection (ensureRequestsCollection db).1 =
      ((ensureRequestsCollection db).1, false) := by
  have hmain : ∀ dbx : Database, dbx.collections.contains "requests" = true →
      ensureRequestsCollection dbx = (dbx, false) := by
    intro dbx hc
    unfold ensureRequestsCollection
    dsimp only
    rw [if_pos ((collections_filter_pos_iff dbx.collections).mpr hc)]
  have hgrow : ((ensureRequestsCollection db).1).collections.contains
      "requests" = true := by
    unfold ensureRequestsCollection
    dsimp only
    split
    · rename_i hc
      exact (collections_filter_pos_iff db.collections).mp hc
    · dsimp only
      simp [List.contains]
  exact ⟨hmain db, hmain _ hgrow⟩

theorem ensureRequestsCollection_idem_witness :
    ensureRequestsCollection sampleDb = (sampleDb, false) :=
  (ensureRequestsCollection_idem sampleDb).1 (by decide)

end AdminPortal

namespace AdminPortal

/-- C2: when a status-update (PATCH) succeeds, the stored record it
matched gets the requested status and the fresh edit timestamp while its
`requestorName`, `itemRequested` and `createdDate` (and every other
record) are unchanged; and no handler ever deletes a record: `PATCH` in
both variants preserves the number of stored records, `PUT` never
shrinks it, and `GET` leaves the stored records untouched. -/
theorem patch_success_frame :
    (∀ (body : PatchBody) (now : Nat) (db : Database) (v : RequestView)
        (db' : Database),
      PATCH' body now db = (Response.patchOk v, db') →
      ∃ l1 orig l2,
        db.requests = l1 ++ orig :: l2 ∧
        body.id = some orig._id ∧
        body.status = some v.status ∧
        db'.requests =
          l1 ++ { orig with status := v.status, lastEditedDate := now } :: l2 ∧
        v.id = orig._id ∧
        v.requestorName = orig.requestorName ∧
        v.itemRequested = orig.itemRequested ∧
        v.createdDate = orig.createdDate ∧
        v.lastEditedDate = now) ∧
    (∀ (body : PatchBody) (now : Nat) (db : Database),
      ((PATCH body now db).2).requests.length = db.requests.length) ∧
    (∀ (body : PatchBody) (now : Nat) (db : Database),
      ((PATCH' body now db).2).requests.length = db.requests.length) ∧
    (∀ (body : CreateBody) (now : Nat) (newId : String) (db : Database),
      db.requests.length ≤ ((PUT body now newId db).2).requests.length) ∧
    (∀ (sp pp : Option String) (ps : Nat) (db : Database),
      ((GET sp pp ps db).2).requests = db.requests) := by
  refine ⟨?_, ?_, ?_, ?_, ?_⟩
  · intro body now db v db' h
    unfold PATCH' at h
    cases hv : validatePatchBody body with
    | error e =>
        rw [hv] at h
        exact absurd h (by simp)
    | ok p =>
        obtain ⟨i, s⟩ := p
        rw [hv] at h
        dsimp only at h
        cases hval : ObjectId.isValid i with
        | false =>
            simp [hval] at h
        | true =>
            simp only [hval, Bool.not_true, Bool.false_eq_true, if_false] at h
            cases hr : (findOneAndUpdateAfter i s now
                ((ensureRequestsCollection db).1).requests).1 with
            | none =>
                rw [hr] at h
                exact absurd h (by simp)
            | some d =>
                rw [hr] at h
                simp only [Prod.mk.injEq, Response.patchOk.injEq] at h
                obtain ⟨h1, h2⟩ := h
                obtain ⟨l1, orig, l2, hl, hid, hd, ht⟩ :=
                  findOneAndUpdateAfter_some i s now _ d hr
                obtain ⟨hbid, hbst, _⟩ := validatePatchBody_ok _ i s hv
                rw [ensure_requests_eq] at hl
                refine ⟨l1, orig, l2, hl, ?_, ?_, ?_, ?_, ?_, ?_, ?_, ?_⟩
                · rw [hbid, hid]
                · rw [hbst]
                  subst h1
                  rw [hd]
                  rfl
                · subst h2
                  subst h1
                  rw [hd] at ht ⊢
                  simpa using ht
                · subst h1
                  rw [hd, hid]
                  rfl
                · subst h1
                  rw [hd]
                  rfl
                · subst h1
                  rw [hd]
                  rfl
                · subst h1
                  rw [hd]
                  rfl
                · subst h1
                  rw [hd]
                  rfl
  · intro body now db
    unfold PATCH
    cases hv : validatePatchBody body with
    | error e => rfl
    | ok p =>
        obtain ⟨i, s⟩ := p
        dsimp only
        cases hval : ObjectId.isValid i with
        | false => simp [hval]
        | true =>
            simp only [hval, Bool.not_true, Bool.false_eq_true, if_false]
            cases hr : (findOneAndUpdateAfter i s now
                ((ensureRequestsCollection db).1).requests).1 <;>
              simp only [hr] <;>
              rw [findOneAndUpdateAfter_length, ensure_requests_eq]
  · intro body now db
    unfold PATCH'
    cases hv : validatePatchBody body with
    | error e => rfl
    | ok p =>
        obtain ⟨i, s⟩ := p
        dsimp only
        cases hval : ObjectId.isValid i with
        | false => simp [hval]
        | true =>
            simp only [hval, Bool.not_true, Bool.false_eq_true, if_false]
            cases hr : (findOneAndUpdateAfter i s now
                ((ensureRequestsCollection db).1).requests).1 <;>
              simp only [hr] <;>
              rw [findOneAndUpdateAfter_length, ensure_requests_eq]
  · intro body now newId db
    unfold PUT
    cases hv : validateCreateBody body with
    | error e => exact Nat.le_refl _
    | ok p =>
        obtain ⟨name, item⟩ := p
        dsimp only
        rw [ensure_requests_eq]
        simp
  · intro sp pp ps db
    unfold GET
    cases hp : jsParseInt (effPageStr pp) with
    | none => rfl
    | some page =>
        dsimp only
        by_cases h1 : page < 1
        · rw [if_pos h1]
        · rw [if_neg h1]
          split
          · rfl
          · dsimp only
            exact ensure_requests_eq db

theorem patch_success_frame_witness :
    ∃ l1 orig l2,
      sampleDb.requests = l1 ++ orig :: l2 ∧
      samplePatchBody.id = some orig._id ∧
      samplePatchBody.status = some "approved" ∧
      sampleDbAfter.requests =
        l1 ++ { orig with status := "approved", lastEditedDate := 5 } :: l2 ∧
      "aaaaaaaaaaaaaaaaaaaaaaaa" = orig._id ∧
      "Alice" = orig.requestorName ∧
      "pens" = orig.itemRequested ∧
      (10 : Nat) = orig.createdDate ∧
      (toView sampleDocAfter).lastEditedDate = 5 :=
  patch_success_frame.1 samplePatchBody 5 sampleDb (toView sampleDocAfter)
    sampleDbAfter (by decide)

end AdminPortal

namespace AdminPortal

/-- C6: a list (GET) request whose page query parameter does not parse
as a number, or parses below 1, is answered with the input-validation
error response (never a success response) and the database is
unchanged. -/
theorem get_rejects_invalid_page (sp pp : Option String) (ps : Nat)
    (db : Database)
    (h : jsParseInt (effPageStr pp) = none ∨
         ∃ v, jsParseInt (effPageStr pp) = some v ∧ v < 1) :
    GET sp pp ps db = (Response.invalidInput, db) := by
  unfold GET
  rcases h with h | ⟨v, hv, hlt⟩
  · rw [h]
  · rw [hv]
    dsimp only
    rw [if_pos hlt]

theorem get_rejects_invalid_page_witness :
    GET none (some "abc") 6 sampleDb = (Response.invalidInput, sampleDb) :=
  get_rejects_invalid_page none (some "abc") 6 sampleDb (Or.inl (by decide))

theorem GET_ok_inv (sp pp : Option String) (ps : Nat) (db : Database)
    (items : List RequestView) (page : Int) (psz tp tc : Nat)
    (db' : Database)
    (h : GET sp pp ps db = (Response.listOk items page psz tp tc, db')) :
    psz = ps ∧
    tc = (db.requests.filter (matchesQuery (effStatus sp))).length ∧
    tp = max 1 ((tc + ps - 1) / ps) ∧
    items = (((sortByCreatedDesc
        (db.requests.filter (matchesQuery (effStatus sp)))).drop
        ((page - 1).toNat * ps)).take ps).map toView ∧
    db'.requests = db.requests := by
  unfold GET at h
  cases hp : jsParseInt (effPageStr pp) with
  | none =>
      rw [hp] at h
      exact absurd h (by simp)
  | some pg =>
      rw [hp] at h
      dsimp only at h
      by_cases h1 : pg < 1
      · rw [if_pos h1] at h
        exact absurd h (by simp)
      · rw [if_neg h1] at h
        split at h
        · exact absurd h (by simp)
        · simp only [Prod.mk.injEq, Response.listOk.injEq] at h
          obtain ⟨⟨hitems, hpage, hpsz, htp, htc⟩, hdb⟩ := h
          subst hpage
          rw [ensure_requests_eq] at hitems htp htc
          refine ⟨hpsz.symm, htc.symm, ?_, hitems.symm, ?_⟩
          · rw [← htp, ← htc]
          · rw [← hdb]
            exact ensure_requests_eq db

end AdminPortal

namespace AdminPortal

theorem pagination_ceil_bounds (tc ps : Nat) (hps : 0 < ps) :
    (tc = 0 → max 1 ((tc + ps - 1) / ps) = 1) ∧
    (0 < tc → tc ≤ (max 1 ((tc + ps - 1) / ps)) * ps ∧
      ps * ((max 1 ((tc + ps - 1) / ps)) - 1) < tc) := by
  constructor
  · intro h0
    subst h0
    rw [Nat.div_eq_of_lt (by omega)]
    decide
  · intro hpos
    obtain ⟨q, hq⟩ : ∃ q, (tc + ps - 1) / ps = q := ⟨_, rfl⟩
    obtain ⟨r, hr⟩ : ∃ r, (tc + ps - 1) % ps = r := ⟨_, rfl⟩
    have hdm : ps * q + r = tc + ps - 1 := by
      rw [← hq, ← hr]
      exact Nat.div_add_mod _ _
    have hmod : r < ps := by
      rw [← hr]
      exact Nat.mod_lt _ hps
    rw [hq]
    have hq1 : 1 ≤ q := by
      by_contra hlt
      push_neg at hlt
      have hq0 : q = 0 := by omega
      rw [hq0, Nat.mul_zero] at hdm
      omega
    rw [Nat.max_eq_right hq1]
    obtain ⟨P, hP⟩ : ∃ P, ps * q = P := ⟨_, rfl⟩
    rw [hP] at hdm
    constructor
    · rw [Nat.mul_comm q ps, hP]
      omega
    · have h3 : ps * (q - 1) = ps * q - ps := by
        cases q with
        | zero => simp
        | succ n => simp [Nat.mul_succ]
      rw [h3, hP]
      omega

/-- C5: a successful list (GET) response reports the configured page
size and a `totalPages` equal to `max 1` of the ceiling of `totalCount`
divided by the page size: it is 1 when no record matches, and exactly
the ceiling (the least number of pages covering all matches) when some
do. -/
theorem get_totalPages_ceil (sp pp : Option String) (ps : Nat)
    (db : Database) (items : List RequestView) (page : Int)
    (psz tp tc : Nat) (db' : Database) (hps : 0 < ps)
    (h : GET sp pp ps db = (Response.listOk items page psz tp tc, db')) :
    psz = ps ∧ tp = max 1 ((tc + ps - 1) / ps) ∧
      (tc = 0 → tp = 1) ∧
      (0 < tc → tc ≤ tp * ps ∧ ps * (tp - 1) < tc) := by
  obtain ⟨hpsz, htc, htp, _, _⟩ :=
    GET_ok_inv sp pp ps db items page psz tp tc db' h
  refine ⟨hpsz, htp, ?_, ?_⟩
  · intro h0
    rw [htp]
    exact (pagination_ceil_bounds tc ps hps).1 h0
  · intro hpos
    rw [htp]
    exact (pagination_ceil_bounds tc ps hps).2 hpos

theorem get_totalPages_ceil_witness :
    (2 : Nat) = 2 ∧ (1 : Nat) = max 1 ((1 + 2 - 1) / 2) ∧
      ((1 : Nat) = 0 → (1 : Nat) = 1) ∧
      (0 < (1 : Nat) → (1 : Nat) ≤ 1 * 2 ∧ 2 * (1 - 1) < 1) :=
  get_totalPages_ceil none none 2 sampleDb [toView sampleDoc] 1 2 1 1
    sampleDb (by decide) (by decide)

end AdminPortal

namespace AdminPortal

/-- C9: a successful list (GET) response returns exactly the records
matching the optional status filter, sorted by `createdDate` descending,
skipping the first `(page-1)*pageSize` matches and taking at most
`pageSize`; every returned item matches the filter, the page is sorted,
and a page past the last match is still a success with an empty items
array; the stored records are untouched. -/
theorem get_items_spec (sp pp : Option String) (ps : Nat) (db : Database)
    (items : List RequestView) (page : Int) (psz tp tc : Nat)
    (db' : Database)
    (h : GET sp pp ps db = (Response.listOk items page psz tp tc, db')) :
    tc = (db.requests.filter (matchesQuery (effStatus sp))).length ∧
    items = (((sortByCreatedDesc
        (db.requests.filter (matchesQuery (effStatus sp)))).drop
        ((page - 1).toNat * ps)).take ps).map toView ∧
    items.length ≤ ps ∧
    List.Pairwise (fun a b => b.createdDate ≤ a.createdDate) items ∧
    (∀ v ∈ items, ∀ s, effStatus sp = some s → v.status = s) ∧
    (tc ≤ (page - 1).toNat * ps → items = []) ∧
    db'.requests = db.requests := by
  obtain ⟨hpsz, htc, htp, hitems, hdb⟩ :=
    GET_ok_inv sp pp ps db items page psz tp tc db' h
  refine ⟨htc, hitems, ?_, ?_, ?_, ?_, hdb⟩
  · rw [hitems, List.length_map]
    exact List.length_take_le ps _
  · rw [hitems]
    refine List.pairwise_map.mpr ?_
    have hsorted : List.Sorted createdDesc (sortByCreatedDesc
        (db.requests.filter (matchesQuery (effStatus sp)))) :=
      List.sorted_insertionSort createdDesc _
    exact List.Pairwise.sublist
      ((List.take_sublist _ _).trans (List.drop_sublist _ _)) hsorted
  · intro v hv s hsp
    rw [hitems] at hv
    obtain ⟨d, hd, he⟩ := List.mem_map.mp hv
    have hd2 : d ∈ sortByCreatedDesc
        (db.requests.filter (matchesQuery (effStatus sp))) :=
      List.Sublist.mem hd
        ((List.take_sublist _ _).trans (List.drop_sublist _ _))
    unfold sortByCreatedDesc at hd2
    have hd3 : d ∈ db.requests.filter (matchesQuery (effStatus sp)) :=
      (List.perm_insertionSort createdDesc _).mem_iff.mp hd2
    obtain ⟨hmem, hpred⟩ := List.mem_filter.mp hd3
    rw [hsp] at hpred
    have hds : d.status = s := by simpa [matchesQuery] using hpred
    rw [← he]
    simpa [toView] using hds
  · intro hle
    rw [hitems]
    have hlen : (sortByCreatedDesc
        (db.requests.filter (matchesQuery (effStatus sp)))).length = tc := by
      unfold sortByCreatedDesc
      rw [(List.perm_insertionSort createdDesc _).length_eq]
      exact htc.symm
    rw [List.drop_eq_nil_of_le (by rw [hlen]; exact hle)]
    simp

theorem get_items_spec_witness :
    (1 : Nat) =
      (sampleDb.requests.filter (matchesQuery (effStatus none))).length ∧
    ([] : List RequestView) = (((sortByCreatedDesc
        (sampleDb.requests.filter (matchesQuery (effStatus none)))).drop
        (((2 : Int) - 1).toNat * 2)).take 2).map toView ∧
    ([] : List RequestView).length ≤ 2 ∧
    List.Pairwise (fun a b => b.createdDate ≤ a.createdDate)
      ([] : List RequestView) ∧
    (∀ v ∈ ([] : List RequestView), ∀ s,
      effStatus none = some s → v.status = s) ∧
    ((1 : Nat) ≤ ((2 : Int) - 1).toNat * 2 →
      ([] : List RequestView) = []) ∧
    sampleDb.requests = sampleDb.requests :=
  get_items_spec none (some "2") 2 sampleDb [] 2 2 1 1 sampleDb (by decide)

end AdminPortal

namespace AdminPortal

/-- C7: every document the create (PUT) handler inserts after its
boundary validation passes also satisfies the storage-layer
`$jsonSchema` validator installed by `ensureRequestsCollection`:
required fields present, length bounds 3-30 and 2-100 met, status in
the four-value enum, no field outside the declared properties. -/
theorem put_schema_compat (body : CreateBody) (now : Nat) (newId : String)
    (db : Database) (d : RequestDoc) (db' : Database)
    (h : PUT body now newId db = (Response.created d, db')) :
    requestsJsonSchema (docToBson d) = true := by
  unfold PUT at h
  cases hv : validateCreateBody body with
  | error e =>
      rw [hv] at h
      exact absurd h (by simp)
  | ok p =>
      obtain ⟨name, item⟩ := p
      rw [hv] at h
      dsimp only at h
      simp only [Prod.mk.injEq, Response.created.injEq] at h
      obtain ⟨h1, h2⟩ := h
      obtain ⟨_, _, hn3, hn30, hi2, hi100⟩ :=
        validateCreateBody_ok body name item hv
      subst h1
      simp [requestsJsonSchema, docToBson, schemaProp, ALLOWED_STATUSES,
        hn3, hn30, hi2, hi100]

theorem put_schema_compat_witness :
    requestsJsonSchema (docToBson sampleCreatedDoc) = true :=
  put_schema_compat sampleCreateBody 7 sampleNewId sampleDb
    sampleCreatedDoc sampleDbAfterPut (by decide)

/-- C10: the two PATCH variants are not equivalent.  On a body whose id
matches a stored record, both mutate the record identically, but the
untyped variant answers with the input-validation error response (its
`!result.value` check always fires under the v6 driver, where
`findOneAndUpdate` returns the document itself) while the typed variant
answers 200 with the updated record. -/
theorem patch_variants_diverge_on_match :
    PATCH samplePatchBody 5 sampleDb = (Response.invalidInput, sampleDbAfter) ∧
    PATCH' samplePatchBody 5 sampleDb =
      (Response.patchOk (toView sampleDocAfter), sampleDbAfter) ∧
    (PATCH samplePatchBody 5 sampleDb).1 ≠
      (PATCH' samplePatchBody 5 sampleDb).1 ∧
    sampleDbAfter.requests ≠ sampleDb.requests := by
  refine ⟨by decide, by decide, by decide, by decide⟩

end AdminPortal
